import Mathlib

/-!
Verification of the code-synthesis / execution / self-repair pipeline of the
repository (governing source file: src/agents/code_agent.py, helper:
src/utils/code_executor.py).

Strings are modelled as `List Char`; the Python string operations used by the
source (`in`, `split(sep, 1)`, `split(sep)`, `strip()`, `startswith`,
`endswith`, `find`, slicing, `replace`) are given executable models below and
the source functions are translated on top of them.  Calls into the language
model (semantic-kernel `invoke`), the import machinery, pip subprocesses and
the `exec` of user code are modelled as explicit oracle parameters, since
their behaviour is outside the program text.
-/

namespace CodeAgent

/-! ## Python string primitives modelled on `List Char` -/

/-- Model of the byte test used by Python `str.strip()` (whitespace). -/
def pyIsSpace (c : Char) : Bool :=
  c == ' ' || c == '\t' || c == '\n' || c == '\x0d' ||
  c == Char.ofNat 11 || c == Char.ofNat 12

/-- Does `p` occur at the very start of `s`?  Model of `str.startswith`. -/
def startsWith : List Char → List Char → Bool
  | [], _ => true
  | _ :: _, [] => false
  | a :: as, b :: bs => a == b && startsWith as bs

/-- Does `p` occur at the very end of `s`?  Model of `str.endswith`. -/
def endsWith (p s : List Char) : Bool :=
  startsWith p.reverse s.reverse

/-- Model of the Python substring test `p in s`. -/
def containsSub (p : List Char) : List Char → Bool
  | [] => p.isEmpty
  | c :: cs => startsWith p (c :: cs) || containsSub p cs

/-- The text after the first occurrence of `sep`, i.e. `s.split(sep, 1)[1]`
when `sep` occurs in `s` (and `[]` when it does not). -/
def afterFirst (sep : List Char) : List Char → List Char
  | [] => []
  | c :: cs => if startsWith sep (c :: cs) then (c :: cs).drop sep.length
               else afterFirst sep cs

/-- The text before the first occurrence of `sep`, i.e. `s.split(sep, 1)[0]`;
the whole of `s` when `sep` does not occur. -/
def beforeFirst (sep : List Char) : List Char → List Char
  | [] => []
  | c :: cs => if startsWith sep (c :: cs) then [] else c :: beforeFirst sep cs

/-- Remove trailing characters satisfying `p`. -/
def dropRightWhile (p : Char → Bool) (s : List Char) : List Char :=
  (s.reverse.dropWhile p).reverse

/-- Model of Python `str.strip()`: remove leading and trailing whitespace. -/
def pyStrip (s : List Char) : List Char :=
  dropRightWhile pyIsSpace (s.dropWhile pyIsSpace)

/-- Model of Python `str.splitlines()` after newline normalisation (the
source only applies it to text whose line terminators are `\n`). -/
def pySplitlines (s : List Char) : List (List Char) :=
  if s = [] then []
  else
    let parts := s.splitOn '\n'
    if parts.getLast? = some [] then parts.dropLast else parts

/-- Model of Python `s.replace(pat, repl)` for a nonempty pattern
`pat = p :: ps` (leftmost, non-overlapping). -/
def replaceSub (p : Char) (ps : List Char) (repl : List Char) : List Char → List Char
  | [] => []
  | c :: cs =>
      if startsWith (p :: ps) (c :: cs) then
        repl ++ replaceSub p ps repl (cs.drop ps.length)
      else
        c :: replaceSub p ps repl cs
termination_by s => s.length
decreasing_by
  · simp only [List.length_drop, List.length_cons]; omega
  · simp only [List.length_cons]; omega

/-- Convenience: the characters of a string literal. -/
def lc (s : String) : List Char := s.data

/-! ## Markdown fence stripping (code_agent.py lines 961-969, 1048-1057, 1120-1132) -/

/-- The shared fence-stripping step applied to already-stripped code sections:
if the text starts with a fence, drop its first line (when a newline exists);
if it then ends with a fence, drop the three fence characters and strip.
This is the body shared by `_parse_code_response`, `_parse_fix_response`,
`_parse_test_data_response` (after their own `.strip()`), and
`_remove_markdown_format`. -/
def stripCodeFences (codeText : List Char) : List Char :=
  let c1 :=
    if startsWith (lc "```") codeText then
      -- first_line_end = code_text.find("\n"); if != -1: code_text[first_line_end+1:]
      if containsSub (lc "\n") codeText then afterFirst (lc "\n") codeText
      else codeText
    else codeText
  if endsWith (lc "```") c1 then pyStrip (c1.take (c1.length - 3)) else c1

/-- Model of `CodeAgent._remove_markdown_format` (code_agent.py 1120-1132). -/
def remove_markdown_format (code : List Char) : List Char :=
  pyStrip (stripCodeFences code)

/-! ## Response parsers (code_agent.py 923-978 and 1013-1061) -/

/-- The field record built by `_parse_code_response`. -/
structure CodeResponseFields where
  language : List Char
  dependencies : List (List Char)
  code : List Char
  explanation : List Char
deriving Repr, DecidableEq

/-- Model of `CodeAgent._parse_code_response` (code_agent.py 923-978).  Each
field is populated only when its section marker occurs in the response;
otherwise the empty default from the initial dict remains. -/
def parse_code_response (response : List Char) : CodeResponseFields :=
  { language :=
      if containsSub (lc "LANGUAGE:") response then
        pyStrip (beforeFirst (lc "\n") (afterFirst (lc "LANGUAGE:") response))
      else []
    dependencies :=
      if containsSub (lc "DEPENDENCIES:") response then
        let depsPart0 := afterFirst (lc "DEPENDENCIES:") response
        let depsPart := if containsSub (lc "CODE:") depsPart0 then
            beforeFirst (lc "CODE:") depsPart0 else depsPart0
        (((pyStrip depsPart).splitOn '\n').map pyStrip).filter (fun d => d ≠ [])
      else []
    code :=
      if containsSub (lc "CODE:") response then
        let codePart0 := afterFirst (lc "CODE:") response
        let codePart := if containsSub (lc "EXPLANATION:") codePart0 then
            beforeFirst (lc "EXPLANATION:") codePart0 else codePart0
        stripCodeFences (pyStrip codePart)
      else []
    explanation :=
      if containsSub (lc "EXPLANATION:") response then
        pyStrip (afterFirst (lc "EXPLANATION:") response)
      else [] }

/-- The field record built by `_parse_fix_response`. -/
structure FixResponseFields where
  error_analysis : List Char
  fix_approach : List Char
  fixed_code : List Char
deriving Repr, DecidableEq

/-- Model of `CodeAgent._parse_fix_response` (code_agent.py 1013-1061). -/
def parse_fix_response (response : List Char) : FixResponseFields :=
  { error_analysis :=
      if containsSub (lc "ERROR_ANALYSIS:") response then
        let part0 := afterFirst (lc "ERROR_ANALYSIS:") response
        let part := if containsSub (lc "FIX_APPROACH:") part0 then
            beforeFirst (lc "FIX_APPROACH:") part0 else part0
        pyStrip part
      else []
    fix_approach :=
      if containsSub (lc "FIX_APPROACH:") response then
        let part0 := afterFirst (lc "FIX_APPROACH:") response
        let part := if containsSub (lc "FIXED_CODE:") part0 then
            beforeFirst (lc "FIXED_CODE:") part0 else part0
        pyStrip part
      else []
    fixed_code :=
      if containsSub (lc "FIXED_CODE:") response then
        stripCodeFences (pyStrip (afterFirst (lc "FIXED_CODE:") response))
      else [] }

/-! ## The repair loop (code_agent.py 803-897, `execute_and_fix_code`)

The calls whose behaviour lies outside the program text are oracles:
`execO i c` is the result string `_execute_python` returns for the execution
of code `c` at loop iteration `i`, and `fixO i c e` is the outcome of the
`fix_code` call (kernel invocation plus `_parse_fix_response`) for code `c`
and error text `e` at iteration `i`: either the parsed fields, or the
exception it raised. -/

/-- Default of `self.max_fix_attempts` (code_agent.py line 38). -/
def max_fix_attempts_default : Nat := 3

/-- The error classification of one execution attempt (code_agent.py line
839): `"執行代碼出錯" in execution_result or "Error" in execution_result`. -/
def hasError (executionResult : List Char) : Bool :=
  containsSub (lc "執行代碼出錯") executionResult ||
  containsSub (lc "Error") executionResult

/-- Outcome of one `fix_code` call: the parsed fix fields, or the message of
the exception the call raised. -/
inductive FixCallOutcome where
  | parsed (fields : FixResponseFields)
  | raised (msg : List Char)

/-- One entry of the `fix_history` list built by `execute_and_fix_code`. -/
inductive HistRecord where
  /-- an execution record (`execution_record`), with its attempt index, the
  code executed, the execution result and the `has_error` classification;
  `fixError` is the `fix_error` field added when the fix call raised. -/
  | execRec (attempt : Nat) (code : List Char) (result : List Char)
      (hasErr : Bool) (fixError : Option (List Char))
  /-- a fix record (`fix_record`), with its attempt index and its `status`
  field (`"代碼已修改"` or `"無法修復"`). -/
  | fixRec (attempt : Nat) (status : List Char)
deriving Repr, DecidableEq

/-- The observable outcome of one repair session.  `executionResult`,
`returnedCode`, `fixAttempts`, `isSuccessful` and `history` are the five
components of the tuple `execute_and_fix_code` returns; `execCount` counts
the calls to `_execute_python` and `fixRequests` the calls issued to
`fix_code`, instrumentation the claims quantify over. -/
structure RepairOutcome where
  executionResult : Option (List Char)
  returnedCode : Option (List Char)
  fixAttempts : Nat
  isSuccessful : Bool
  history : List HistRecord
  execCount : Nat
  fixRequests : Nat
deriving Repr, DecidableEq

/-- The `for attempt in range(self.max_fix_attempts + 1)` loop of
`execute_and_fix_code` (code_agent.py 830-895).  `fuel` is the number of
iterations the range still allows (initially `maxFix + 1`), `attempt` the
current iteration index, `code` the `current_code` variable, `fa` the
`fix_attempts` counter, `hist` the `fix_history` accumulated so far,
`lastRes` the last `execution_result` (for the unreachable natural loop
exit), and `ec`/`fr` the instrumentation counters. -/
def repair_loop (execO : Nat → List Char → List Char)
    (fixO : Nat → List Char → List Char → FixCallOutcome) (maxFix : Nat) :
    Nat → Nat → List Char → Nat → List HistRecord → Option (List Char) →
    Nat → Nat → RepairOutcome
  | 0, _, code, fa, hist, lastRes, ec, fr =>
      -- the range is exhausted without a break (unreachable for
      -- fuel = maxFix + 1, since attempt maxFix always breaks)
      { executionResult := lastRes
        returnedCode := if 0 < fa then some code else none
        fixAttempts := fa
        isSuccessful := false
        history := hist
        execCount := ec
        fixRequests := fr }
  | fuel + 1, attempt, code, fa, hist, _, ec, fr =>
      if hasError (execO attempt code) = false then
        -- 代碼執行成功 (lines 843-847)
        { executionResult := some (execO attempt code)
          returnedCode := if 0 < fa then some code else none
          fixAttempts := fa
          isSuccessful := true
          history := hist ++ [HistRecord.execRec attempt code (execO attempt code)
            (hasError (execO attempt code)) none]
          execCount := ec + 1
          fixRequests := fr }
      else if maxFix ≤ fa then
        -- 到達最大嘗試次數 (lines 850-852)
        { executionResult := some (execO attempt code)
          returnedCode := if 0 < fa then some code else none
          fixAttempts := fa
          isSuccessful := false
          history := hist ++ [HistRecord.execRec attempt code (execO attempt code)
            (hasError (execO attempt code)) none]
          execCount := ec + 1
          fixRequests := fr }
      else
        match fixO attempt code (execO attempt code) with
        | FixCallOutcome.raised msg =>
            -- 修復過程出錯，停止嘗試 (lines 890-895)
            { executionResult := some (execO attempt code ++ lc "\n\n自動修復過程中出錯: " ++ msg)
              returnedCode := if 0 < fa then some code else none
              fixAttempts := fa
              isSuccessful := false
              history := hist ++ [HistRecord.execRec attempt code (execO attempt code)
                (hasError (execO attempt code)) (some msg)]
              execCount := ec + 1
              fixRequests := fr + 1 }
        | FixCallOutcome.parsed fields =>
            if fields.fixed_code ≠ [] ∧ fields.fixed_code ≠ code then
              -- 代碼已修改 (lines 875-878, 886-888): adopt the fix, continue
              repair_loop execO fixO maxFix fuel (attempt + 1) fields.fixed_code (fa + 1)
                (hist ++ [HistRecord.execRec attempt code (execO attempt code)
                    (hasError (execO attempt code)) none,
                  HistRecord.fixRec attempt (lc "代碼已修改")])
                (some (execO attempt code)) (ec + 1) (fr + 1)
            else
              -- 代碼沒有變化，停止嘗試 (lines 879-884)
              { executionResult := some (execO attempt code)
                returnedCode := if 0 < fa then some code else none
                fixAttempts := fa
                isSuccessful := false
                history := hist ++ [HistRecord.execRec attempt code (execO attempt code)
                    (hasError (execO attempt code)) none,
                  HistRecord.fixRec attempt (lc "無法修復")]
                execCount := ec + 1
                fixRequests := fr + 1 }

/-- Model of `CodeAgent.execute_and_fix_code` (code_agent.py 803-897).
Non-Python code is not executed at all: the function returns a fixed
advisory message with zero attempts and success reported (lines 818-821).
For Python it runs the repair loop with `maxFix + 1` available iterations. -/
def execute_and_fix_code (execO : Nat → List Char → List Char)
    (fixO : Nat → List Char → List Char → FixCallOutcome)
    (maxFix : Nat) (code language : List Char) : RepairOutcome :=
  if language ≠ lc "python" then
    { executionResult := some (lc "已生成 " ++ language ++ lc " 代碼。目前系統僅支持執行 Python 代碼。")
      returnedCode := none
      fixAttempts := 0
      isSuccessful := true
      history := []
      execCount := 0
      fixRequests := 0 }
  else
    repair_loop execO fixO maxFix (maxFix + 1) 0 code 0 [] none 0 0

/-! ## In-process Python execution (code_agent.py 1134-1241, `_execute_python`,
and code_executor.py 37-92, `CodeExecutor.execute_code`)

The `exec` of user code is an oracle value describing what the evaluated code
did (its captured streams and `result` binding, or the fault it raised); the
surrounding redirection, formatting and restoration logic is translated from
the source.  The ambient `sys.stdout` / `sys.stderr` targets are modelled as
an explicit stream state threaded through the call. -/

/-- Decimal rendering of a line number. -/
def natStr (n : Nat) : List Char := (Nat.repr n).data

/-- Model of `CodeAgent._clean_code` (code_agent.py 1243-1267): replace
non-breaking spaces, normalise line endings, expand tabs to four spaces
line by line. -/
def clean_code (code : List Char) : List Char :=
  let c1 := replaceSub '\xa0' [] (lc " ") code
  let c2 := replaceSub '\x0d' (lc "\n") (lc "\n") c1
  let c3 := replaceSub '\x0d' [] (lc "\n") c2
  List.intercalate (lc "\n") ((c3.splitOn '\n').map (replaceSub '\t' [] (lc "    ")))

/-- What an ambient standard stream of the process currently points at:
whatever was installed before the call, or one of the capture buffers the
call itself creates. -/
inductive StreamTarget where
  | original (id : Nat)
  | buffer (id : Nat)
deriving Repr, DecidableEq

/-- The ambient `sys.stdout` / `sys.stderr` targets. -/
structure SysStreams where
  stdout : StreamTarget
  stderr : StreamTarget
deriving Repr, DecidableEq

/-- What the `exec` of the user code did inside `_execute_python`: ran to
completion (with the text it wrote to the redirected streams and the value
of the `result` binding, if any and non-`None`), raised a `SyntaxError`
before execution, or raised some other exception during evaluation
(`lineNumber = none` models the `"未知"` case where the traceback yields no
line). -/
inductive ExecOutcome where
  | normal (stdoutText stderrText : List Char) (resultVar : Option (List Char))
  | syntaxFault (lineNumber : Nat) (msg : List Char)
  | runtimeFault (errorClass : List Char) (lineNumber : Option Nat) (detail : List Char)

/-- Output formatting of the successful branch of `_execute_python`
(code_agent.py 1186-1207). -/
def format_normal (stdoutText stderrText : List Char)
    (resultVar : Option (List Char)) : List Char :=
  let resultOutput := match resultVar with
    | some r => lc "結果變數:\n" ++ r ++ lc "\n\n"
    | none => []
  let output := resultOutput
    ++ (if stdoutText ≠ [] then lc "標準輸出:\n" ++ stdoutText ++ lc "\n" else [])
    ++ (if stderrText ≠ [] then lc "錯誤輸出:\n" ++ stderrText ++ lc "\n" else [])
  if pyStrip output = [] then lc "代碼執行成功，但沒有產生輸出。" else output

/-- The source-excerpt context of the `SyntaxError` branch (code_agent.py
1215-1223). -/
def syntax_context (codeLines : List (List Char)) (lineNumber : Nat) : List Char :=
  let startLine := lineNumber - 3
  let endLine := min codeLines.length (lineNumber + 2)
  lc "\n代碼上下文:\n" ++
  (((List.range (endLine - startLine)).map (fun k =>
      let i := startLine + k
      if h : i < codeLines.length then
        (if i + 1 = lineNumber then lc ">> " else lc "   ") ++
        lc "第 " ++ natStr (i + 1) ++ lc " 行: " ++ codeLines.get ⟨i, h⟩ ++ lc "\n"
      else [])).flatten)

/-- Model of `CodeAgent._execute_python` (code_agent.py 1134-1241).  The
previous stream targets are saved, both streams are redirected to fresh
capture buffers, the (cleaned) code is run, the branch-dependent result
string is built, and the `finally` block restores the saved targets on
every exit path. -/
def execute_python (outcome : ExecOutcome) (code : List Char)
    (s : SysStreams) : List Char × SysStreams :=
  let oldStdout := s.stdout
  let oldStderr := s.stderr
  let redirected : SysStreams := ⟨StreamTarget.buffer 0, StreamTarget.buffer 1⟩
  let cleaned := clean_code code
  let msg :=
    match outcome with
    | ExecOutcome.normal o e r => format_normal o e r
    | ExecOutcome.syntaxFault ln m =>
        lc "執行代碼出錯: SyntaxError 在第 " ++ natStr ln ++ lc " 行: " ++ m ++
        lc "\n" ++ syntax_context (pySplitlines cleaned) ln
    | ExecOutcome.runtimeFault cls ln detail =>
        lc "執行代碼出錯: " ++ cls ++ lc " 在第 " ++
        (match ln with | some n => natStr n | none => lc "未知") ++
        lc " 行: " ++ detail
  -- finally: 恢復標準輸出 (lines 1238-1241)
  (msg, { redirected with stdout := oldStdout, stderr := oldStderr })

/-- What the `exec` of user code did inside `CodeExecutor.execute_code`. -/
inductive ExecutorOutcome where
  | normal (stdoutText stderrText : List Char) (resultVar : Option (List Char))
  | fault (errorClass : List Char) (lineNumber : Nat) (detail : List Char)

/-- Model of `CodeExecutor.execute_code` (code_executor.py 37-92): same
redirection discipline as `_execute_python`, simpler formatting, and the
`exec_locals` result binding returned alongside the output. -/
def executor_execute_code (outcome : ExecutorOutcome)
    (s : SysStreams) : (List Char × Option (List Char)) × SysStreams :=
  let oldStdout := s.stdout
  let oldStderr := s.stderr
  let redirected : SysStreams := ⟨StreamTarget.buffer 0, StreamTarget.buffer 1⟩
  let r :=
    match outcome with
    | ExecutorOutcome.normal o e rv =>
        ((if o ≠ [] then lc "標準輸出:\n" ++ o ++ lc "\n" else []) ++
         (if e ≠ [] then lc "錯誤輸出:\n" ++ e ++ lc "\n" else []), rv)
    | ExecutorOutcome.fault cls ln detail =>
        (lc "執行代碼出錯: " ++ cls ++ lc " 在第 " ++ natStr ln ++ lc " 行: " ++ detail,
         none)
  -- finally: 恢復標準輸出 (lines 89-92)
  (r, { redirected with stdout := oldStdout, stderr := oldStderr })

/-! ## Dependency handling (code_agent.py 1063-1118) -/

/-- The version-qualifier stripping of `check_dependencies` (line 1077):
`dep.split('==')[0].split('>=')[0].split('<=')[0].strip()`. -/
def clean_dep (dep : List Char) : List Char :=
  pyStrip (beforeFirst (lc "<=") (beforeFirst (lc ">=") (beforeFirst (lc "==") dep)))

/-- Model of `CodeAgent.check_dependencies` (code_agent.py 1063-1087).
`importable name` is the oracle for `importlib.import_module(name)`
succeeding. -/
def check_dependencies (importable : List Char → Bool) :
    List (List Char) → List (List Char)
  | [] => []
  | dep :: rest =>
      if clean_dep dep = [] then check_dependencies importable rest
      else if importable (clean_dep dep) then check_dependencies importable rest
      else dep :: check_dependencies importable rest

/-- Outcome of the pip subprocess: it ran to completion with an exit code
and captured streams, or the invocation raised. -/
inductive PipOutcome where
  | completed (returncode : Int) (stdout stderr : List Char)
  | raised (msg : List Char)

/-- Result of `install_dependencies`: the returned log string, plus (as
instrumentation) the argument list handed to the package manager, `none`
when no invocation was attempted. -/
structure InstallResult where
  log : List Char
  invoked : Option (List (List Char))
deriving Repr, DecidableEq

/-- Model of `CodeAgent.install_dependencies` (code_agent.py 1089-1118):
empty list short-circuits; otherwise pip is invoked with the dependency
strings unchanged; a non-zero exit yields a failure string carrying the
child's stderr, success yields a string carrying its stdout, and an
exception from the invocation is caught and rendered. -/
def install_dependencies (pip : List (List Char) → PipOutcome)
    (dependencies : List (List Char)) : InstallResult :=
  if dependencies = [] then
    { log := lc "沒有需要安裝的依賴項。", invoked := none }
  else
    match pip dependencies with
    | PipOutcome.completed rc out err =>
        if rc ≠ 0 then
          { log := lc "安裝依賴項時出錯:\n" ++ err, invoked := some dependencies }
        else
          { log := lc "安裝成功:\n" ++ out, invoked := some dependencies }
    | PipOutcome.raised m =>
        { log := lc "安裝過程中出現錯誤: " ++ m, invoked := some dependencies }

/-! ## The outer message pipeline (code_agent.py 252-495, `process_message`) -/

/-- `self.allow_installs` (code_agent.py line 37). -/
def allow_installs : Bool := true

/-- Model of Python `str.lower()` as used on language names. -/
def pyLower (s : List Char) : List Char := s.map Char.toLower

/-- Model of `generate_smart_code` (code_agent.py 899-921): the kernel
invocation oracle returns the model response or the exception it raised;
the response is stripped and parsed, a failure is re-raised wrapped. -/
def generate_smart_code (kern : List Char → Except (List Char) (List Char))
    (task : List Char) : Except (List Char) CodeResponseFields :=
  match kern task with
  | Except.ok result => Except.ok (parse_code_response (pyStrip result))
  | Except.error e => Except.error (lc "代碼生成失敗: " ++ e)

/-- The prompt interpolation of `generate_file_creation_code`
(code_agent.py 784-797). -/
def file_gen_prompt (task fileType : List Char) : List Char :=
  lc "\n        請生成一段Python代碼，用於創建一個" ++ fileType ++
  lc "檔案，內容應該與以下任務相關：\n        \n        任務: " ++ task ++
  lc "\n        \n        生成的代碼應該滿足以下要求：\n        1. 使用適當的Python庫生成" ++
  fileType ++
  lc "檔案\n        2. 將檔案保存在 \x27downloads\x27 目錄下（如果目錄不存在，應自動創建）\n        3. 檔案名稱應該合理且有意義\n        4. 代碼應處理所有可能的錯誤\n        5. 代碼應該在執行結束時打印檔案的絕對路徑，格式為：\x27檔案已成功生成並保存到: [路徑]\x27\n        \n        如果任務需要數據，請生成合理的示例數據或使用適當的數據結構。\n        "

/-- Model of `generate_file_creation_code` (code_agent.py 781-801): build
the file-generation prompt and delegate to `generate_smart_code`; a
collaborator failure propagates (no handler here). -/
def generate_file_creation_code (kern : List Char → Except (List Char) (List Char))
    (task fileType : List Char) : Except (List Char) CodeResponseFields :=
  generate_smart_code kern (file_gen_prompt task fileType)

/-- The task-prefix list of `process_message` (code_agent.py line 317). -/
def task_prefixes : List (List Char) :=
  [lc "請幫我寫代碼", lc "生成代碼", lc "寫一段程式", lc "代碼生成",
   lc "幫我寫", lc "實現", lc "開發"]

/-- The prefix-stripping of `process_message` (code_agent.py 316-320): the
first listed prefix occurring in the message is split on, otherwise the
message itself is the task. -/
def extract_task (message : List Char) : List Char :=
  match task_prefixes.find? (fun p => containsSub p message) with
  | some p => pyStrip (afterFirst p message)
  | none => message

/-- The field record of `_parse_test_data_response` (code_agent.py 571-627),
as produced by `analyze_input_requirements`. -/
structure TestDataFields where
  input_analysis : List Char
  test_data : List Char
  execution_method : List Char
  modified_code : List Char
deriving Repr, DecidableEq

/-- The collaborators and host facilities `process_message` touches.  The
rendering fields stand for the pure markdown string construction of lines
299-311, 363-472 and 476-489: straight-line string building that cannot
raise, abstracted as total functions. -/
structure ProcessOracles where
  /-- kernel invocation used by `generate_smart_code` -/
  kern : List Char → Except (List Char) (List Char)
  /-- `_detect_file_type_with_ai` (629-700): total, returns `"pdf"` on any
  internal failure -/
  detectFileType : List Char → List Char
  /-- `_extract_file_path_with_ai` (702-771): total, `none` on failure -/
  extractFilePath : Option (List Char) → Option (List Char)
  /-- `EnvironmentChecker.check_environment` -/
  checkEnvironment : List Char → Bool × List Char
  /-- import success oracle for `check_dependencies` -/
  importable : List Char → Bool
  /-- pip subprocess oracle for `install_dependencies` -/
  pip : List (List Char) → PipOutcome
  /-- `analyze_input_requirements` (497-540): total, its internal
  `generate_test_data` failure is caught and degraded (lines 533-538) -/
  analyzeInput : List Char → List Char → Bool × TestDataFields
  /-- execution oracle for the repair loop -/
  execO : Nat → List Char → List Char
  /-- fix oracle for the repair loop -/
  fixO : Nat → List Char → List Char → FixCallOutcome
  /-- the configured `self.max_fix_attempts` (default 3) -/
  maxFixAttempts : Nat
  /-- markdown rendering of the environment-ready branch (363-472) -/
  renderReady : List Char → List (List Char) → List Char → List Char → Bool →
    TestDataFields → RepairOutcome → List Char → List Char
  /-- rendering of the environment-not-ready branch (476-489) -/
  renderNotReady : List Char → List (List Char) → List Char → List Char →
    List Char → List Char
  /-- rendering of the file-generation response (299-311) -/
  renderFileGen : Option (List Char) → Option (List Char) → List Char

/-- The body of the `try` block of `process_message` (code_agent.py
322-491): generate, probe the environment, resolve dependencies, analyze
input needs, run the repair session and render.  A collaborator failure
propagates as `Except.error` to the caller, where `process_message`
catches it. -/
def process_code_task (env : ProcessOracles) (task : List Char) :
    Except (List Char) (List Char) :=
  match generate_smart_code env.kern task with
  | Except.error e => Except.error e
  | Except.ok codeResult =>
      let language := pyLower codeResult.language
      let dependencies := codeResult.dependencies
      let code := codeResult.code
      let explanation := codeResult.explanation
      let envCheck := env.checkEnvironment language
      if envCheck.1 then
        let installLogs :=
          if language = lc "python" ∧ dependencies ≠ [] then
            let missingDeps := check_dependencies env.importable dependencies
            if missingDeps ≠ [] ∧ allow_installs then
              (install_dependencies env.pip missingDeps).log
            else []
          else []
        let analyzed := env.analyzeInput code language
        let code1 :=
          if analyzed.1 ∧ analyzed.2.modified_code ≠ [] then
            analyzed.2.modified_code
          else code
        let o := execute_and_fix_code env.execO env.fixO env.maxFixAttempts code1 language
        Except.ok (env.renderReady language dependencies installLogs code1
          analyzed.1 analyzed.2 o explanation)
      else
        Except.ok (env.renderNotReady language dependencies code explanation envCheck.2)

/-- Model of `CodeAgent.process_message` (code_agent.py 252-495).  The
file-generation branch (274-313) runs before and outside the `try` block
(322-495): an exception raised in it propagates to the caller.  The
ordinary branch catches every failure and converts it to the explanatory
message of line 495. -/
def process_message (env : ProcessOracles) (message : List Char) :
    Except (List Char) (List Char) :=
  let isFileGenerationMode := containsSub (lc "[FILE_GENERATION_MODE=True]") message
  let cleanMessage :=
    if isFileGenerationMode then
      pyStrip (replaceSub '[' (lc "FILE_GENERATION_MODE=True]") [] message)
    else message
  if isFileGenerationMode then
    -- 檔案生成模式 (274-313), not covered by the try/except below
    let task := cleanMessage
    let fileType := env.detectFileType task
    match generate_file_creation_code env.kern task fileType with
    | Except.error e => Except.error e
    | Except.ok codeResult =>
        let code := codeResult.code
        let o := execute_and_fix_code env.execO env.fixO env.maxFixAttempts code (lc "python")
        let _finalCode := match o.returnedCode with
          | some fc => if fc ≠ [] then fc else code
          | none => code
        let filePath := env.extractFilePath o.executionResult
        Except.ok (env.renderFileGen filePath o.executionResult)
  else
    -- ordinary path: the try/except of lines 322-495
    match process_code_task env (extract_task message) with
    | Except.ok response => Except.ok response
    | Except.error e =>
        Except.ok (lc "處理您的代碼請求時出錯:\n\n```\n" ++ e ++ lc "\n```")

/-! ## Basic lemmas about the string primitives -/

theorem startsWith_iff (p s : List Char) : startsWith p s = true ↔ ∃ t, s = p ++ t := by
  induction p generalizing s with
  | nil => simp [startsWith]
  | cons a as ih =>
    cases s with
    | nil =>
      simp [startsWith]
    | cons b bs =>
      simp only [startsWith, Bool.and_eq_true, beq_iff_eq, ih, List.cons_append,
        List.cons.injEq]
      constructor
      · rintro ⟨rfl, t, rfl⟩; exact ⟨t, rfl, rfl⟩
      · rintro ⟨t, rfl, rfl⟩; exact ⟨rfl, t, rfl⟩

theorem containsSub_iff (p s : List Char) :
    containsSub p s = true ↔ ∃ a b, s = a ++ p ++ b := by
  induction s with
  | nil =>
    simp only [containsSub, List.isEmpty_iff]
    constructor
    · rintro rfl; exact ⟨[], [], rfl⟩
    · rintro ⟨a, b, h⟩
      rcases List.append_eq_nil.mp h.symm with ⟨h1, -⟩
      exact (List.append_eq_nil.mp h1).2
  | cons c cs ih =>
    simp only [containsSub, Bool.or_eq_true, ih, startsWith_iff]
    constructor
    · rintro (⟨t, ht⟩ | ⟨a, b, rfl⟩)
      · exact ⟨[], t, by simpa using ht⟩
      · exact ⟨c :: a, b, rfl⟩
    · rintro ⟨a, b, h⟩
      cases a with
      | nil => exact Or.inl ⟨b, by simpa using h⟩
      | cons x xs =>
        simp only [List.cons_append, List.cons.injEq] at h
        exact Or.inr ⟨xs, b, h.2⟩

theorem dropRightWhile_eq_rdropWhile (p : Char → Bool) (s : List Char) :
    dropRightWhile p s = List.rdropWhile p s := rfl

theorem not_space_of_dropWhile_self {c : Char} {cs : List Char}
    (h : List.dropWhile pyIsSpace (c :: cs) = c :: cs) : pyIsSpace c = false := by
  by_cases hc : pyIsSpace c
  · rw [List.dropWhile_cons_of_pos hc] at h
    have hlen := congrArg List.length h
    have hle := (List.dropWhile_suffix (l := cs) pyIsSpace).length_le
    simp only [List.length_cons] at hlen
    omega
  · simpa using hc

theorem dropWhile_concat_cases (p : Char → Bool) (l : List Char) (c : Char) :
    (l ++ [c]).dropWhile p = [] ∨ ∃ m, (l ++ [c]).dropWhile p = m ++ [c] := by
  induction l with
  | nil =>
    rw [List.nil_append, List.dropWhile_cons]
    by_cases hc : p c
    · simp [hc]
    · exact Or.inr ⟨[], by simp [hc]⟩
  | cons a l ih =>
    rw [List.cons_append, List.dropWhile_cons]
    by_cases ha : p a
    · simpa [ha] using ih
    · exact Or.inr ⟨a :: l, by simp [ha]⟩

theorem dropWhile_dropRightWhile {l : List Char}
    (h : List.dropWhile pyIsSpace l = l) :
    List.dropWhile pyIsSpace (dropRightWhile pyIsSpace l) = dropRightWhile pyIsSpace l := by
  cases l with
  | nil => simp [dropRightWhile]
  | cons c cs =>
    have hc : pyIsSpace c = false := not_space_of_dropWhile_self h
    rw [dropRightWhile, List.reverse_cons]
    rcases dropWhile_concat_cases pyIsSpace cs.reverse c with h0 | ⟨m, hm⟩
    · rw [h0]; simp
    · rw [hm, List.reverse_append, List.reverse_singleton, List.singleton_append,
        List.dropWhile_cons]
      simp [hc]

theorem pyStrip_idem (s : List Char) : pyStrip (pyStrip s) = pyStrip s := by
  have h1 : List.dropWhile pyIsSpace (s.dropWhile pyIsSpace) = s.dropWhile pyIsSpace :=
    List.dropWhile_idempotent pyIsSpace s
  have h2 := dropWhile_dropRightWhile h1
  show pyStrip (dropRightWhile pyIsSpace (s.dropWhile pyIsSpace)) =
    dropRightWhile pyIsSpace (s.dropWhile pyIsSpace)
  rw [pyStrip, h2, dropRightWhile_eq_rdropWhile, dropRightWhile_eq_rdropWhile]
  exact List.rdropWhile_idempotent pyIsSpace _

theorem forall_space_of_pyStrip_nil {s : List Char} (h : pyStrip s = []) :
    ∀ c ∈ s, pyIsSpace c = true := by
  rw [pyStrip, dropRightWhile_eq_rdropWhile, List.rdropWhile_eq_nil_iff] at h
  intro c hc
  by_cases hsp : pyIsSpace c
  · exact hsp
  · rw [← List.takeWhile_append_dropWhile (p := pyIsSpace) (l := s)] at hc
    rcases List.mem_append.mp hc with h1 | h2
    · exact absurd (List.mem_takeWhile_imp h1) hsp
    · exact absurd (h c h2) hsp

theorem pyStrip_ne_nil_of_containsSub {p s : List Char} (h : containsSub p s = true)
    {c : Char} (hc : c ∈ p) (hcs : pyIsSpace c = false) : pyStrip s ≠ [] := by
  intro h0
  obtain ⟨a, b, rfl⟩ := (containsSub_iff _ _).mp h
  have hmem : c ∈ a ++ p ++ b :=
    List.mem_append.mpr (Or.inl (List.mem_append.mpr (Or.inr hc)))
  rw [forall_space_of_pyStrip_nil h0 c hmem] at hcs
  exact absurd hcs (by simp)

/-! ## Lemmas about the repair loop -/

theorem repair_loop_counts (execO : Nat → List Char → List Char)
    (fixO : Nat → List Char → List Char → FixCallOutcome) (maxFix : Nat) :
    ∀ fuel att code fa hist lastRes ec fr,
      (repair_loop execO fixO maxFix fuel att code fa hist lastRes ec fr).execCount ≤
        ec + fuel ∧
      (repair_loop execO fixO maxFix fuel att code fa hist lastRes ec fr).fixRequests ≤
        fr + (maxFix - fa) := by
  intro fuel
  induction fuel with
  | zero =>
    intro att code fa hist lastRes ec fr
    rw [repair_loop]
    exact ⟨Nat.le_refl _, Nat.le_add_right _ _⟩
  | succ n ih =>
    intro att code fa hist lastRes ec fr
    rw [repair_loop]
    by_cases h1 : hasError (execO att code) = false
    · rw [if_pos h1]
      exact ⟨by simp, by simp⟩
    · rw [if_neg h1]
      by_cases h2 : maxFix ≤ fa
      · rw [if_pos h2]
        exact ⟨by simp, by simp⟩
      · rw [if_neg h2]
        cases hfo : fixO att code (execO att code) with
        | raised msg =>
          dsimp only
          exact ⟨by simp, by simp; omega⟩
        | parsed fields =>
          dsimp only
          by_cases h3 : fields.fixed_code ≠ [] ∧ fields.fixed_code ≠ code
          · rw [if_pos h3]
            obtain ⟨ihc, ihf⟩ := ih (att + 1) fields.fixed_code (fa + 1) _ _ (ec + 1) (fr + 1)
            exact ⟨le_trans ihc (by omega), le_trans ihf (by omega)⟩
          · rw [if_neg h3]
            exact ⟨by simp, by simp; omega⟩

theorem repair_loop_fixRequests_mono (execO : Nat → List Char → List Char)
    (fixO : Nat → List Char → List Char → FixCallOutcome) (maxFix : Nat) :
    ∀ fuel att code fa hist lastRes ec fr,
      fr ≤ (repair_loop execO fixO maxFix fuel att code fa hist lastRes ec fr).fixRequests := by
  intro fuel
  induction fuel with
  | zero =>
    intro att code fa hist lastRes ec fr
    rw [repair_loop]
  | succ n ih =>
    intro att code fa hist lastRes ec fr
    rw [repair_loop]
    by_cases h1 : hasError (execO att code) = false
    · rw [if_pos h1]
    · rw [if_neg h1]
      by_cases h2 : maxFix ≤ fa
      · rw [if_pos h2]
      · rw [if_neg h2]
        cases hfo : fixO att code (execO att code) with
        | raised msg => dsimp only; simp
        | parsed fields =>
          dsimp only
          by_cases h3 : fields.fixed_code ≠ [] ∧ fields.fixed_code ≠ code
          · rw [if_pos h3]
            exact le_trans (by omega) (ih (att + 1) fields.fixed_code (fa + 1) _ _ (ec + 1) (fr + 1))
          · rw [if_neg h3]; simp

/-- Every execution record in a `fix_history` carries the `has_error`
classification of its own execution result. -/
def execRecClassified : HistRecord → Prop
  | HistRecord.execRec _ _ res hasErr _ => hasErr = hasError res
  | HistRecord.fixRec _ _ => True

theorem repair_loop_classified (execO : Nat → List Char → List Char)
    (fixO : Nat → List Char → List Char → FixCallOutcome) (maxFix : Nat) :
    ∀ fuel att code fa hist lastRes ec fr,
      (∀ r ∈ hist, execRecClassified r) →
      ∀ r ∈ (repair_loop execO fixO maxFix fuel att code fa hist lastRes ec fr).history,
        execRecClassified r := by
  intro fuel
  induction fuel with
  | zero =>
    intro att code fa hist lastRes ec fr hh
    rw [repair_loop]
    exact hh
  | succ n ih =>
    intro att code fa hist lastRes ec fr hh
    rw [repair_loop]
    by_cases h1 : hasError (execO att code) = false
    · rw [if_pos h1]
      intro r hr
      rcases List.mem_append.mp hr with h | h
      · exact hh r h
      · rcases List.mem_singleton.mp h with rfl
        exact rfl
    · rw [if_neg h1]
      by_cases h2 : maxFix ≤ fa
      · rw [if_pos h2]
        intro r hr
        rcases List.mem_append.mp hr with h | h
        · exact hh r h
        · rcases List.mem_singleton.mp h with rfl
          exact rfl
      · rw [if_neg h2]
        cases hfo : fixO att code (execO att code) with
        | raised msg =>
          dsimp only
          intro r hr
          rcases List.mem_append.mp hr with h | h
          · exact hh r h
          · rcases List.mem_singleton.mp h with rfl
            exact rfl
        | parsed fields =>
          dsimp only
          by_cases h3 : fields.fixed_code ≠ [] ∧ fields.fixed_code ≠ code
          · rw [if_pos h3]
            refine ih (att + 1) fields.fixed_code (fa + 1) _ _ (ec + 1) (fr + 1) ?_
            intro r hr
            rcases List.mem_append.mp hr with h | h
            · exact hh r h
            · rcases List.mem_cons.mp h with rfl | h
              · exact rfl
              · rcases List.mem_singleton.mp h with rfl
                exact trivial
          · rw [if_neg h3]
            intro r hr
            rcases List.mem_append.mp hr with h | h
            · exact hh r h
            · rcases List.mem_cons.mp h with rfl | h
              · exact rfl
              · rcases List.mem_singleton.mp h with rfl
                exact trivial

/-! ## Lemmas about substring containment and error classification -/

theorem containsSub_append_left {p s : List Char} (t : List Char)
    (h : containsSub p s = true) : containsSub p (s ++ t) = true := by
  obtain ⟨a, b, rfl⟩ := (containsSub_iff p s).mp h
  exact (containsSub_iff p _).mpr ⟨a, b ++ t, by simp⟩

theorem containsSub_append_right {p s : List Char} (t : List Char)
    (h : containsSub p s = true) : containsSub p (t ++ s) = true := by
  obtain ⟨a, b, rfl⟩ := (containsSub_iff p s).mp h
  exact (containsSub_iff p _).mpr ⟨t ++ a, b, by simp⟩

theorem ne_nil_of_containsSub {p s : List Char} (hp : p ≠ [])
    (h : containsSub p s = true) : s ≠ [] := by
  obtain ⟨a, b, rfl⟩ := (containsSub_iff p s).mp h
  intro h0
  rcases List.append_eq_nil.mp h0 with ⟨h1, -⟩
  exact hp (List.append_eq_nil.mp h1).2

theorem hasError_of_contains_Error {s : List Char}
    (h : containsSub (lc "Error") s = true) : hasError s = true := by
  rw [hasError, h, Bool.or_true]

theorem hasError_format_normal {stdoutText stderrText : List Char}
    (resultVar : Option (List Char))
    (h : containsSub (lc "Error") stdoutText = true) :
    hasError (format_normal stdoutText stderrText resultVar) = true := by
  have ho : stdoutText ≠ [] := ne_nil_of_containsSub (by decide) h
  simp only [format_normal, if_pos ho]
  have hcont : containsSub (lc "Error")
      ((match resultVar with
         | some r => lc "結果變數:\n" ++ r ++ lc "\n\n"
         | none => []) ++
       (lc "標準輸出:\n" ++ stdoutText ++ lc "\n") ++
       (if stderrText ≠ [] then lc "錯誤輸出:\n" ++ stderrText ++ lc "\n" else [])) = true := by
    apply containsSub_append_left
    apply containsSub_append_right
    exact containsSub_append_left _ (containsSub_append_right _ h)
  rw [if_neg (pyStrip_ne_nil_of_containsSub hcont (c := 'E') (by decide) (by decide))]
  exact hasError_of_contains_Error hcont

/-! ## Claim C1 -/

/-- Claim C1: for every configured bound `N ≥ 0` (`max_fix_attempts`,
default 3), one repair session performs at most `N + 1` executions of the
code and issues at most `N` fix requests to the generation collaborator. -/
theorem c1_repair_session_bounds (execO : Nat → List Char → List Char)
    (fixO : Nat → List Char → List Char → FixCallOutcome)
    (N : Nat) (code language : List Char) :
    max_fix_attempts_default = 3 ∧
    (execute_and_fix_code execO fixO N code language).execCount ≤ N + 1 ∧
    (execute_and_fix_code execO fixO N code language).fixRequests ≤ N := by
  refine ⟨rfl, ?_, ?_⟩ <;>
  · rw [execute_and_fix_code]
    split_ifs with h
    · simp
    · have hc := repair_loop_counts execO fixO N (N + 1) 0 code 0 [] none 0 0
      omega

/-! ## Claim C2 -/

/-- Claim C2: whenever a fix request returns code that is empty or
textually identical to the code it was asked to fix, the repair session
terminates immediately (the recorded fix status is `"無法修復"`, success is
not reported) and performs no further execution: exactly the one execution
already made in this iteration is counted and the history ends at this
iteration's records. -/
theorem c2_unchanged_fix_stalls (execO : Nat → List Char → List Char)
    (fixO : Nat → List Char → List Char → FixCallOutcome)
    (maxFix fuel att fa ec fr : Nat) (code : List Char)
    (hist : List HistRecord) (lastRes : Option (List Char))
    (fields : FixResponseFields)
    (herr : hasError (execO att code) = true)
    (hbudget : fa < maxFix)
    (hfix : fixO att code (execO att code) = FixCallOutcome.parsed fields)
    (hstall : fields.fixed_code = [] ∨ fields.fixed_code = code) :
    repair_loop execO fixO maxFix (fuel + 1) att code fa hist lastRes ec fr =
      { executionResult := some (execO att code)
        returnedCode := if 0 < fa then some code else none
        fixAttempts := fa
        isSuccessful := false
        history := hist ++ [HistRecord.execRec att code (execO att code) true none,
                            HistRecord.fixRec att (lc "無法修復")]
        execCount := ec + 1
        fixRequests := fr + 1 } := by
  rw [repair_loop, if_neg (by rw [herr]; simp), if_neg (by omega), hfix]
  dsimp only
  rw [if_neg (by rcases hstall with h | h <;> simp [h]), herr]

/-- Claim C2 witness: a concrete stalled session step. -/
theorem c2_unchanged_fix_stalls_witness :
    repair_loop (fun _ _ => lc "Error: division by zero")
        (fun _ c _ => FixCallOutcome.parsed ⟨[], [], c⟩) 3 4 0 (lc "x") 0 [] none 0 0 =
      { executionResult := some (lc "Error: division by zero")
        returnedCode := none
        fixAttempts := 0
        isSuccessful := false
        history := [HistRecord.execRec 0 (lc "x") (lc "Error: division by zero") true none,
                    HistRecord.fixRec 0 (lc "無法修復")]
        execCount := 1
        fixRequests := 1 } := by
  have h := c2_unchanged_fix_stalls (fun _ _ => lc "Error: division by zero")
    (fun _ c _ => FixCallOutcome.parsed ⟨[], [], c⟩) 3 3 0 0 0 0 (lc "x") [] none
    ⟨[], [], lc "x"⟩ (by decide) (by decide) rfl (Or.inr rfl)
  simpa using h

/-! ## Claim C3 -/

/-- Claim C3 counterexample: for a declared language other than Python
(here `"javascript"`), the pipeline does not execute the code at all — no
run step is performed (`execCount = 0`, empty history), contradicting the
claimed out-of-process write/compile/run/cleanup behaviour; the returned
result is a fixed advisory message. -/
theorem c3_counterexample :
    (execute_and_fix_code (fun _ _ => lc "ran") (fun _ _ _ => FixCallOutcome.raised [])
        3 (lc "console.log(1)") (lc "javascript")).execCount = 0 ∧
    (execute_and_fix_code (fun _ _ => lc "ran") (fun _ _ _ => FixCallOutcome.raised [])
        3 (lc "console.log(1)") (lc "javascript")).executionResult =
      some (lc "已生成 javascript 代碼。目前系統僅支持執行 Python 代碼。") := by
  constructor <;> rfl

/-- Claim C3 amended: for every declared language other than Python, the
code is not executed at all: `execute_and_fix_code` performs zero
executions, issues zero fix requests, reports success, and returns the
advisory message naming the language. -/
theorem c3_non_python_not_executed (execO : Nat → List Char → List Char)
    (fixO : Nat → List Char → List Char → FixCallOutcome)
    (N : Nat) (code language : List Char) (h : language ≠ lc "python") :
    execute_and_fix_code execO fixO N code language =
      { executionResult :=
          some (lc "已生成 " ++ language ++ lc " 代碼。目前系統僅支持執行 Python 代碼。")
        returnedCode := none
        fixAttempts := 0
        isSuccessful := true
        history := []
        execCount := 0
        fixRequests := 0 } := by
  rw [execute_and_fix_code, if_pos h]

/-- Claim C3 witness: the amended statement at language `"javascript"`. -/
theorem c3_non_python_not_executed_witness :
    execute_and_fix_code (fun _ _ => lc "ran") (fun _ _ _ => FixCallOutcome.raised [])
        3 (lc "console.log(1)") (lc "javascript") =
      { executionResult :=
          some (lc "已生成 " ++ lc "javascript" ++ lc " 代碼。目前系統僅支持執行 Python 代碼。")
        returnedCode := none
        fixAttempts := 0
        isSuccessful := true
        history := []
        execCount := 0
        fixRequests := 0 } :=
  c3_non_python_not_executed (fun _ _ => lc "ran") (fun _ _ _ => FixCallOutcome.raised [])
    3 (lc "console.log(1)") (lc "javascript") (by decide)

/-! ## Claim C4 -/

/-- Claim C4: for every code string passed to in-process Python execution
(both `CodeAgent._execute_python` and `CodeExecutor.execute_code`), the
ambient standard output and standard error stream targets after the call
equal the targets before the call, on every exit path: normal completion,
pre-execution syntax fault, and any uncaught fault raised by the evaluated
code. -/
theorem c4_streams_restored_on_every_path :
    (∀ (outcome : ExecOutcome) (code : List Char) (s : SysStreams),
      (execute_python outcome code s).2 = s) ∧
    (∀ (outcome : ExecutorOutcome) (s : SysStreams),
      (executor_execute_code outcome s).2 = s) :=
  ⟨fun _ _ _ => rfl, fun _ _ => rfl⟩

/-! ## Claim C5 -/

/-- A concrete oracle environment whose generation collaborator always
raises; every other collaborator is trivial. -/
def failingGenEnv : ProcessOracles where
  kern := fun _ => Except.error (lc "boom")
  detectFileType := fun _ => lc "pdf"
  extractFilePath := fun _ => none
  checkEnvironment := fun _ => (true, [])
  importable := fun _ => true
  pip := fun _ => PipOutcome.raised []
  analyzeInput := fun _ _ => (false, ⟨[], [], [], []⟩)
  execO := fun _ _ => []
  fixO := fun _ _ _ => FixCallOutcome.raised []
  maxFixAttempts := 3
  renderReady := fun _ _ _ _ _ _ _ _ => []
  renderNotReady := fun _ _ _ _ _ => []
  renderFileGen := fun _ _ => []

/-- Claim C5 counterexample: for a file-generation-mode message, a failure
of the generation collaborator is not caught: `process_message` propagates
the exception (the file-generation branch, lines 274-313, runs outside the
`try` block that starts at line 322). -/
theorem c5_counterexample :
    process_message failingGenEnv (lc "[FILE_GENERATION_MODE=True] 生成一個PDF報表") =
      Except.error (lc "代碼生成失敗: boom") := rfl

/-- Claim C5 amended: for every message that is not in file-generation mode
(does not contain the `[FILE_GENERATION_MODE=True]` marker), processing
never raises past the outer boundary: any failure, including a failure of
the generation collaborator, is caught and converted into the user-visible
explanatory message of line 495.  In file-generation mode a
generation-collaborator failure propagates (see the counterexample). -/
theorem c5_ordinary_path_never_raises (env : ProcessOracles) (message : List Char)
    (h : containsSub (lc "[FILE_GENERATION_MODE=True]") message = false) :
    (∃ r, process_message env message = Except.ok r) ∧
    (∀ e, process_code_task env (extract_task message) = Except.error e →
      process_message env message =
        Except.ok (lc "處理您的代碼請求時出錯:\n\n```\n" ++ e ++ lc "\n```")) := by
  constructor
  · cases hp : process_code_task env (extract_task message) with
    | ok r => exact ⟨r, by simp [process_message, h, hp]⟩
    | error e =>
      exact ⟨lc "處理您的代碼請求時出錯:\n\n```\n" ++ e ++ lc "\n```",
        by simp [process_message, h, hp]⟩
  · intro e he
    simp [process_message, h, he]

/-- Claim C5 witness: with the always-failing collaborator and an ordinary
message, the failure comes back as an explanatory message, not an
exception. -/
theorem c5_ordinary_path_never_raises_witness :
    process_message failingGenEnv (lc "hello") =
      Except.ok (lc "處理您的代碼請求時出錯:\n\n```\n" ++ lc "代碼生成失敗: boom" ++ lc "\n```") :=
  (c5_ordinary_path_never_raises failingGenEnv (lc "hello") (by decide)).2
    (lc "代碼生成失敗: boom") rfl

/-! ## Claim C6 -/

/-- Claim C6: the parsers are total (modelled as Lean functions they return
a field record for every input), and each absent section marker yields the
empty default: the empty string for text fields and the empty list for the
dependency field, for both `_parse_code_response` and
`_parse_fix_response`.  In particular a response containing none of the
markers yields all-empty fields. -/
theorem c6_parser_absent_markers_default (response : List Char) :
    (containsSub (lc "LANGUAGE:") response = false →
      (parse_code_response response).language = []) ∧
    (containsSub (lc "DEPENDENCIES:") response = false →
      (parse_code_response response).dependencies = []) ∧
    (containsSub (lc "CODE:") response = false →
      (parse_code_response response).code = []) ∧
    (containsSub (lc "EXPLANATION:") response = false →
      (parse_code_response response).explanation = []) ∧
    (containsSub (lc "ERROR_ANALYSIS:") response = false →
      (parse_fix_response response).error_analysis = []) ∧
    (containsSub (lc "FIX_APPROACH:") response = false →
      (parse_fix_response response).fix_approach = []) ∧
    (containsSub (lc "FIXED_CODE:") response = false →
      (parse_fix_response response).fixed_code = []) := by
  refine ⟨fun h => ?_, fun h => ?_, fun h => ?_, fun h => ?_, fun h => ?_,
    fun h => ?_, fun h => ?_⟩ <;>
  simp [parse_code_response, parse_fix_response, h]

/-- Claim C6 witness: a response with none of the markers parses to
all-empty fields. -/
theorem c6_parser_absent_markers_default_witness :
    (parse_code_response (lc "hello world")).language = [] ∧
    (parse_code_response (lc "hello world")).dependencies = [] ∧
    (parse_code_response (lc "hello world")).code = [] ∧
    (parse_code_response (lc "hello world")).explanation = [] ∧
    (parse_fix_response (lc "hello world")).error_analysis = [] ∧
    (parse_fix_response (lc "hello world")).fix_approach = [] ∧
    (parse_fix_response (lc "hello world")).fixed_code = [] := by
  obtain ⟨h1, h2, h3, h4, h5, h6, h7⟩ := c6_parser_absent_markers_default (lc "hello world")
  exact ⟨h1 (by decide), h2 (by decide), h3 (by decide), h4 (by decide),
    h5 (by decide), h6 (by decide), h7 (by decide)⟩

/-! ## Claim C7 -/

/-- Claim C7 counterexample: the fence stripping is not idempotent.  On the
six-backtick input the first application strips the trailing fence and is
left with exactly one fence, which a second application strips again. -/
theorem c7_counterexample :
    remove_markdown_format (lc "``````") = lc "```" ∧
    remove_markdown_format (remove_markdown_format (lc "``````")) ≠
      remove_markdown_format (lc "``````") := by
  constructor <;> decide

/-- Claim C7 amended: the fence stripping is a no-op on its own output
whenever that output no longer starts or ends with a fence marker; in
general it is not idempotent (see the counterexample). -/
theorem c7_strip_idempotent_when_defenced (s : List Char)
    (h1 : startsWith (lc "```") (remove_markdown_format s) = false)
    (h2 : endsWith (lc "```") (remove_markdown_format s) = false) :
    remove_markdown_format (remove_markdown_format s) = remove_markdown_format s := by
  have hy : stripCodeFences (remove_markdown_format s) = remove_markdown_format s := by
    rw [stripCodeFences]
    simp only [h1, h2, Bool.false_eq_true, if_false]
  calc remove_markdown_format (remove_markdown_format s)
      = pyStrip (stripCodeFences (remove_markdown_format s)) := rfl
    _ = pyStrip (remove_markdown_format s) := by rw [hy]
    _ = pyStrip (pyStrip (stripCodeFences s)) := rfl
    _ = pyStrip (stripCodeFences s) := pyStrip_idem _
    _ = remove_markdown_format s := rfl

/-- Claim C7 witness: the amended statement at a markdown-wrapped payload. -/
theorem c7_strip_idempotent_when_defenced_witness :
    remove_markdown_format (remove_markdown_format (lc "```python\nprint(1)\n```")) =
      remove_markdown_format (lc "```python\nprint(1)\n```") :=
  c7_strip_idempotent_when_defenced (lc "```python\nprint(1)\n```")
    (by decide) (by decide)

/-! ## Claim C8 -/

/-- Membership in the missing-dependency list implies membership in the
input list. -/
theorem check_dependencies_subset (importable : List Char → Bool) :
    ∀ l, ∀ d ∈ check_dependencies importable l, d ∈ l := by
  intro l
  induction l with
  | nil => simp [check_dependencies]
  | cons a rest ih =>
    intro d hd
    rw [check_dependencies] at hd
    split_ifs at hd with h1 h2
    · exact List.mem_cons_of_mem a (ih d hd)
    · exact List.mem_cons_of_mem a (ih d hd)
    · rcases List.mem_cons.mp hd with rfl | hd
      · exact List.mem_cons_self _ _
      · exact List.mem_cons_of_mem a (ih d hd)

/-- A dependency whose cleaned name is empty or importable is never
reported missing. -/
theorem not_mem_check_dependencies (importable : List Char → Bool) (d : List Char)
    (hd : clean_dep d = [] ∨ importable (clean_dep d) = true) :
    ∀ l, d ∉ check_dependencies importable l := by
  intro l
  induction l with
  | nil => simp [check_dependencies]
  | cons a rest ih =>
    rw [check_dependencies]
    split_ifs with h1 h2
    · exact ih
    · exact ih
    · intro hmem
      rcases List.mem_cons.mp hmem with rfl | hmem
      · rcases hd with h | h
        · exact h1 h
        · exact h2 h
      · exact ih hmem

/-- Claim C8: the list of dependencies reported missing is a subset of the
input list; each entry is tested by stripping any version qualifier
(`clean_dep` strips `==`, `>=`, `<=`) and importing the bare name, and
entries whose import succeeds are never reported missing. -/
theorem c8_missing_subset_and_importable_excluded (importable : List Char → Bool)
    (deps : List (List Char)) :
    (∀ d ∈ check_dependencies importable deps, d ∈ deps) ∧
    (∀ d ∈ deps, importable (clean_dep d) = true →
      d ∉ check_dependencies importable deps) :=
  ⟨check_dependencies_subset importable deps,
   fun d _ himp => not_mem_check_dependencies importable d (Or.inr himp) deps⟩

/-- Import oracle for the Claim C8 witness: only `numpy` resolves. -/
def c8Importable : List Char → Bool := fun d => d == lc "numpy"

/-- Claim C8 witness: with only `numpy` importable, `numpy==1.2` is not
reported missing while `pandas` (reported missing) is in the input list. -/
theorem c8_missing_subset_and_importable_excluded_witness :
    lc "numpy==1.2" ∉ check_dependencies c8Importable [lc "numpy==1.2", lc "pandas"] ∧
    lc "pandas" ∈ [lc "numpy==1.2", lc "pandas"] := by
  have h := c8_missing_subset_and_importable_excluded c8Importable
    [lc "numpy==1.2", lc "pandas"]
  exact ⟨h.2 (lc "numpy==1.2") (by decide) (by decide), h.1 (lc "pandas") (by decide)⟩

/-! ## Claim C9 -/

/-- Claim C9 counterexample: on a successful install (exit code 0) the
returned log carries only the installer's standard output, not the
combined standard output and standard error: the stderr text `"B"` does
not occur in the log. -/
theorem c9_counterexample :
    (install_dependencies (fun _ => PipOutcome.completed 0 (lc "A") (lc "B"))
        [lc "pkg==1.0"]).log = lc "安裝成功:\nA" ∧
    containsSub (lc "B")
      (install_dependencies (fun _ => PipOutcome.completed 0 (lc "A") (lc "B"))
        [lc "pkg==1.0"]).log = false := by
  constructor <;> decide

/-- Claim C9 amended: `install_dependencies` invokes the package manager
with the full qualifier-preserving dependency strings and always returns a
log string (an exception from the invocation is caught and rendered, a
non-zero exit is surfaced as a failure string); the log carries the
installer's standard error on failure and its standard output on success
— one stream, not their combination. -/
theorem c9_install_log_shape (pip : List (List Char) → PipOutcome)
    (deps : List (List Char)) (rc : Int) (out err msg : List Char) :
    (deps = [] →
      install_dependencies pip deps = ⟨lc "沒有需要安裝的依賴項。", none⟩) ∧
    (deps ≠ [] → pip deps = PipOutcome.completed rc out err →
      (install_dependencies pip deps).invoked = some deps ∧
      (rc ≠ 0 → (install_dependencies pip deps).log = lc "安裝依賴項時出錯:\n" ++ err) ∧
      (rc = 0 → (install_dependencies pip deps).log = lc "安裝成功:\n" ++ out)) ∧
    (deps ≠ [] → pip deps = PipOutcome.raised msg →
      (install_dependencies pip deps).log = lc "安裝過程中出現錯誤: " ++ msg ∧
      (install_dependencies pip deps).invoked = some deps) := by
  refine ⟨fun h => ?_, fun h hp => ?_, fun h hp => ?_⟩
  · rw [install_dependencies, if_pos h]
  · rw [install_dependencies, if_neg h, hp]
    dsimp only
    refine ⟨?_, fun hrc => ?_, fun hrc => ?_⟩
    · split_ifs <;> rfl
    · rw [if_pos hrc]
    · rw [if_neg (by simp [hrc])]
  · rw [install_dependencies, if_neg h, hp]
    exact ⟨rfl, rfl⟩

/-- Claim C9 witness: a failing install surfaces the child's stderr in the
failure string, with the full qualifier-preserving argument passed. -/
theorem c9_install_log_shape_witness :
    (install_dependencies (fun _ => PipOutcome.completed 1 (lc "A") (lc "B"))
        [lc "pkg==1.0"]).invoked = some [lc "pkg==1.0"] ∧
    (install_dependencies (fun _ => PipOutcome.completed 1 (lc "A") (lc "B"))
        [lc "pkg==1.0"]).log = lc "安裝依賴項時出錯:\n" ++ lc "B" := by
  have h := (c9_install_log_shape (fun _ => PipOutcome.completed 1 (lc "A") (lc "B"))
    [lc "pkg==1.0"] 1 (lc "A") (lc "B") []).2.1 (by decide) rfl
  exact ⟨h.1, h.2.1 (by decide)⟩

/-! ## Claim C10 -/

/-- Claim C10: the repair loop classifies an execution attempt as failed
exactly when the attempt's result text contains the substring
`"執行代碼出錯"` or the substring `"Error"` (first conjunct, and every
execution record in a session history carries that classification of its
own result, third conjunct); an execution that completes without raising
any exception but whose captured output contains `"Error"` is classified
failed (second conjunct), and a failed attempt with fix budget remaining
triggers a fix request (fourth conjunct). -/
theorem c10_error_substring_classification (execO : Nat → List Char → List Char)
    (fixO : Nat → List Char → List Char → FixCallOutcome)
    (maxFix fuel att fa ec fr : Nat) (code c : List Char)
    (hist : List HistRecord) (lastRes : Option (List Char)) :
    (∀ res : List Char, hasError res =
      (containsSub (lc "執行代碼出錯") res || containsSub (lc "Error") res)) ∧
    (∀ (stdoutText stderrText : List Char) (resultVar : Option (List Char))
        (codeStr : List Char) (s : SysStreams),
      containsSub (lc "Error") stdoutText = true →
      hasError (execute_python (ExecOutcome.normal stdoutText stderrText resultVar)
        codeStr s).1 = true) ∧
    (∀ r ∈ (execute_and_fix_code execO fixO maxFix code (lc "python")).history,
      execRecClassified r) ∧
    (containsSub (lc "Error") (execO att c) = true → fa < maxFix →
      fr + 1 ≤ (repair_loop execO fixO maxFix (fuel + 1) att c fa hist
        lastRes ec fr).fixRequests) := by
  refine ⟨fun res => rfl, ?_, ?_, ?_⟩
  · intro o e rv cs s h
    exact hasError_format_normal rv h
  · rw [execute_and_fix_code, if_neg (by simp)]
    exact repair_loop_classified execO fixO maxFix (maxFix + 1) 0 code 0 [] none 0 0
      (by simp)
  · intro h hb
    rw [repair_loop, if_neg (by rw [hasError_of_contains_Error h]; simp),
      if_neg (by omega)]
    cases hfo : fixO att c (execO att c) with
    | raised msg => dsimp only; simp
    | parsed fields =>
      dsimp only
      by_cases h3 : fields.fixed_code ≠ [] ∧ fields.fixed_code ≠ c
      · rw [if_pos h3]
        exact repair_loop_fixRequests_mono execO fixO maxFix fuel (att + 1)
          fields.fixed_code (fa + 1) _ _ (ec + 1) (fr + 1)
      · rw [if_neg h3]

/-- Claim C10 witness: an execution that merely printed a line containing
`"Error"` (no exception raised) is classified failed, and with budget
remaining the session issues a fix request. -/
theorem c10_error_substring_classification_witness :
    hasError (execute_python (ExecOutcome.normal (lc "Error rate: 5%") [] none)
      (lc "print(rate)") ⟨StreamTarget.original 0, StreamTarget.original 1⟩).1 = true ∧
    0 + 1 ≤ (repair_loop (fun _ _ => lc "Error rate: 5%")
      (fun _ _ _ => FixCallOutcome.raised (lc "fail")) 3 (3 + 1) 0 (lc "x") 0 []
      none 0 0).fixRequests := by
  have h := c10_error_substring_classification (fun _ _ => lc "Error rate: 5%")
    (fun _ _ _ => FixCallOutcome.raised (lc "fail")) 3 3 0 0 0 0 (lc "x") (lc "x") [] none
  exact ⟨h.2.1 (lc "Error rate: 5%") [] none (lc "print(rate)")
      ⟨StreamTarget.original 0, StreamTarget.original 1⟩ (by decide),
    h.2.2.2 (by decide) (by decide)⟩

end CodeAgent
